import Mathlib

/-!
Verification development for the mcp-storage-server repository.

This file shallowly embeds the parts of `src/core/storage/client.ts`,
`src/core/storage/types.ts`, `src/core/server/config.ts` and
`src/core/server/tools/upload.ts` that the verified properties are about:
the `StorachaClient` lifecycle (memoized `initialize`), the guarded
`uploadFiles` / `uploadFilesFromUrls` entry points, the policy-enforced
URL ingestor `fetchFileFromUrl` (scheme check, domain allow-list,
predeclared and streaming size enforcement, MIME resolution, combined
cancellation), the IPFS path resolver, and the archive-based `retrieve`
pipeline.

Network and runtime effects are modelled by explicit environment records
(`FetchEnv`, `InitEnv`, `RetrieveEnv`) describing what the external world
answers; the embedded functions consume them in the exact order and with
the exact guard conditions of the TypeScript source (JavaScript truthiness
of optional values and of `0`/`""` is modelled explicitly).
-/

set_option autoImplicit false

deriving instance DecidableEq for Except

namespace Storacha

/-- Unified error taxonomy of the embedded operations, one tag per
`throw new Error(...)` site of the source. -/
inductive Err where
  | notInitialized
  | uploadAborted
  | invalidUrl
  | schemeNotAllowed
  | domainNotAllowed
  | headFailed
  | sizeExceededPredeclared
  | getFailed
  | emptyBody
  | sizeExceededStreaming
  | timeoutOrAborted
  | invalidPath
  | gatewayError
  | blockNotFound
  deriving DecidableEq, Repr

/-- `UrlUploadConfig` from `types.ts`: policy for URL-based uploads. -/
structure UrlUploadConfig where
  maxUrlFileSizeBytes : Nat
  allowedUrlSchemes : List String
  urlFetchTimeoutMs : Nat
  allowAllUrlDomains : Bool
  allowedUrlDomains : Option (List String)
  deriving DecidableEq, Repr

/-- A file to upload from a URL, as consumed by `fetchFileFromUrl`
(the destructuring `const { url, name, mimeType } = fileSpec`). -/
structure UploadFileFromUrl where
  name : String
  url : String
  mimeType : Option String
  deriving DecidableEq, Repr

/-- The in-memory file produced by the ingestor
(`new File([combined], name, { type: contentType })`). -/
structure FileBlob where
  name : String
  bytes : List Nat
  mimeType : String
  deriving DecidableEq, Repr

/-- The result of `new URL(urlString)`: the fields the source reads. -/
structure ParsedUrl where
  /-- scheme with trailing colon, as in the WHATWG `URL.protocol` -/
  protocol : String
  hostname : String
  deriving DecidableEq, Repr

/-! ## Client lifecycle (`initialize`, upload guards) -/

/-- Settled outcome of the memoized initialization promise. -/
inductive InitOutcome where
  | ok
  | failed
  deriving DecidableEq, Repr

/-- What a caller of `initialize` observes. -/
inductive InitRet where
  | done
  | missingKey
  | missingDelegation
  | initError
  deriving DecidableEq, Repr

/-- External world for one run of the initialization body: whether
`Storage.create` resolves and whether `storage.addSpace` resolves. -/
structure InitEnv where
  createOk : Bool
  addSpaceOk : Bool
  deriving DecidableEq, Repr

/-- The mutable fields of `StorachaClient` that the lifecycle touches,
plus a ghost counter of backend connection attempts. -/
structure ClientState where
  hasSigner : Bool
  hasDelegation : Bool
  /-- `this.initialized`: `none` is the `null` promise; `some o` is the
  committed promise with settled outcome `o`. -/
  initMemo : Option InitOutcome
  /-- `this.storage`: set as soon as `Storage.create` resolves, even if
  `addSpace` subsequently fails. -/
  storage : Option Unit
  /-- ghost: number of `Storage.create` attempts made so far -/
  connectAttempts : Nat
  deriving DecidableEq, Repr

/-- A fresh client as built by the constructor. -/
def freshClient : ClientState :=
  { hasSigner := true, hasDelegation := true, initMemo := none,
    storage := none, connectAttempts := 0 }

def retOf : InitOutcome → InitRet
  | .ok => .done
  | .failed => .initError

/-- The async IIFE body of `initialize`: `Storage.create` then
`addSpace`; `this.storage` is assigned before `addSpace` can fail. -/
def runInitBody (env : InitEnv) : Option Unit × InitOutcome :=
  if env.createOk then
    if env.addSpaceOk then (some (), .ok) else (some (), .failed)
  else (none, .failed)

/-- `StorachaClient.initialize`, lines 71–111 of `client.ts`:
return the memoized promise if present; otherwise reject on a missing
signer or delegation without committing; otherwise commit the promise
(assign `this.initialized`) and run the body exactly once. -/
def initClient (env : InitEnv) (s : ClientState) : ClientState × InitRet :=
  match s.initMemo with
  | some o => (s, retOf o)
  | none =>
    if ¬s.hasSigner then (s, .missingKey)
    else if ¬s.hasDelegation then (s, .missingDelegation)
    else
      let r := runInitBody env
      ({ s with initMemo := some r.2, storage := r.1,
                connectAttempts := s.connectAttempts + 1 }, retOf r.2)

/-- The spec's `Ready` state: the initialization promise settled
successfully. -/
def readyState (s : ClientState) : Prop :=
  s.initMemo = some InitOutcome.ok

instance (s : ClientState) : Decidable (readyState s) := by
  unfold readyState; infer_instance

/-! ## URL ingestor (`fetchFileFromUrl`) -/

/-- Lower-casing of a JavaScript string, character by character
(`s.toLowerCase()` on the code points the model covers). -/
def lowerChars (s : String) : List Char :=
  s.data.map Char.toLower

/-- JavaScript `String.prototype.endsWith`, as a list-suffix test. -/
def suffixMatch (pat s : List Char) : Bool :=
  List.isSuffixOf pat s

/-- `url.protocol.slice(0, -1)`: the scheme without the trailing colon. -/
def schemeOf (u : ParsedUrl) : String :=
  u.protocol.dropRight 1

/-- The scheme guard of `fetchFileFromUrl` (line 222): fires only when a
`urlConfig` is present (its `allowedUrlSchemes` array is always truthy)
and the scheme is not in the list. -/
def schemeRejected (cfg? : Option UrlUploadConfig) (u : ParsedUrl) : Bool :=
  match cfg? with
  | none => false
  | some c => ¬ c.allowedUrlSchemes.contains (schemeOf u)

/-- The host test of the domain guard (lines 234–238): lower-cased host
equals a lower-cased allowed domain, or ends with `"." + domain`. -/
def isDomainAllowed (domains : List String) (host : String) : Bool :=
  let hostname := lowerChars host
  domains.any fun d =>
    hostname == lowerChars d || suffixMatch ('.' :: lowerChars d) hostname

/-- Specification-side predicate, following the claim's words: the
allow-list contains, case-insensitively, the host exactly, or a domain of
which the host is a strict subdomain (the host ends with a dot followed
by the domain). -/
def specDomainAllowed (domains : List String) (host : String) : Prop :=
  ∃ d ∈ domains, lowerChars host = lowerChars d ∨
    List.IsSuffix ('.' :: lowerChars d) (lowerChars host)

/-- The domain guard of `fetchFileFromUrl` (lines 229–245): skipped when
no config is given or `allowAllUrlDomains` holds; an absent or empty
allow-list rejects immediately; otherwise `isDomainAllowed` decides. -/
def validateDomain (cfg? : Option UrlUploadConfig) (host : String) :
    Except Err Unit :=
  match cfg? with
  | none => .ok ()
  | some cfg =>
    if cfg.allowAllUrlDomains then .ok ()
    else
      match cfg.allowedUrlDomains with
      | none => .error .domainNotAllowed
      | some ds =>
        if ds.isEmpty then .error .domainNotAllowed
        else if isDomainAllowed ds host then .ok ()
        else .error .domainNotAllowed

/-- The timer guard (lines 249–251): `setTimeout` is issued only when a
config is present and `urlFetchTimeoutMs` is truthy (nonzero). -/
def timerArmed (cfg? : Option UrlUploadConfig) : Bool :=
  match cfg? with
  | none => false
  | some c => decide (c.urlFetchTimeoutMs ≠ 0)

/-- The predeclared size guard (lines 271–279): fires only when the HEAD
response declared a (non-empty) content length, a config is present and
its `maxUrlFileSizeBytes` is truthy (nonzero), and the declared size
strictly exceeds the limit. -/
def predeclaredRejected (cfg? : Option UrlUploadConfig)
    (contentLength : Option Nat) : Bool :=
  match contentLength, cfg? with
  | some n, some c =>
    decide (c.maxUrlFileSizeBytes ≠ 0) && decide (n > c.maxUrlFileSizeBytes)
  | _, _ => false

/-- `mimeType || response.headers.get('content-type') ||
'application/octet-stream'` (line 292): JavaScript `||` treats the empty
string and an absent value alike. -/
def jsOrString (a : Option String) (b : String) : String :=
  match a with
  | some s => if s = "" then b else s
  | none => b

/-- Effective MIME type of the fetched file. -/
def resolveContentType (mimeOverride declared : Option String) : String :=
  jsOrString mimeOverride (jsOrString declared "application/octet-stream")

/-- The in-loop size guard (line 312): `urlConfig?.maxUrlFileSizeBytes &&
totalSize > urlConfig.maxUrlFileSizeBytes`. -/
def sizeLimitHit (mb : Option Nat) (total : Nat) : Bool :=
  match mb with
  | none => false
  | some m => decide (m ≠ 0) && decide (total > m)

/-- The reader loop of lines 300–322: read a chunk, add its length to the
running total, fail the moment the guard fires, otherwise push the chunk.
The second component is a ghost: the largest number of bytes ever held at
once (retained chunks plus the in-flight chunk). -/
def readLoop (mb : Option Nat) (acc : List (List Nat)) (total : Nat) :
    List (List Nat) → Except Err (List (List Nat)) × Nat
  | [] => (.ok acc, total)
  | c :: rest =>
    let total2 := total + c.length
    if sizeLimitHit mb total2 then (.error .sizeExceededStreaming, total2)
    else
      let r := readLoop mb (acc ++ [c]) total2 rest
      (r.1, max total2 r.2)

/-- The chunk list retained by the reader loop (or its failure). -/
def readBody (mb : Option Nat) (chunks : List (List Nat)) :
    Except Err (List (List Nat)) :=
  (readLoop mb [] 0 chunks).1

/-- Ghost observation: the peak number of body bytes held at once while
reading `chunks`. -/
def readRetained (mb : Option Nat) (chunks : List (List Nat)) : Nat :=
  (readLoop mb [] 0 chunks).2

/-- The copy loop of lines 324–331: concatenate all retained chunks. -/
def combineChunks : List (List Nat) → List Nat
  | [] => []
  | c :: rest => c ++ combineChunks rest

/-- Specification-side predicate: starting from `total`, some running
prefix total of the chunk lengths strictly exceeds `m`. -/
def prefixExceeds (m : Nat) : Nat → List (List Nat) → Bool
  | _, [] => false
  | total, c :: rest =>
    decide (total + c.length > m) || prefixExceeds m (total + c.length) rest

/-- Length of the largest single chunk (the worst-case in-flight chunk). -/
def maxChunkLen : List (List Nat) → Nat
  | [] => 0
  | c :: rest => max c.length (maxChunkLen rest)

/-- What the external world answers during one `fetchFileFromUrl` run. -/
structure FetchEnv where
  /-- result of `new URL(urlString)`; `none` means the constructor threw -/
  parsedUrl : Option ParsedUrl
  /-- `headResponse.ok` -/
  headOk : Bool
  /-- numeric value of the `content-length` header of the HEAD response;
  `none` for an absent or empty header -/
  contentLength : Option Nat
  /-- `response.ok` of the GET request -/
  getOk : Bool
  /-- `content-type` header of the GET response; `none` when absent -/
  contentType : Option String
  /-- whether `response.body` is non-null -/
  bodyPresent : Bool
  /-- the chunk sequence the body reader yields -/
  chunks : List (List Nat)
  deriving DecidableEq, Repr

/-- `StorachaClient.fetchFileFromUrl`, lines 206–346 of `client.ts`, for
runs in which neither cancellation source fires: URL parse, scheme guard,
domain guard, HEAD request with predeclared size guard, GET request,
MIME resolution, body presence guard, and the streaming reader. -/
def fetchFileFromUrl (fileSpec : UploadFileFromUrl)
    (cfg? : Option UrlUploadConfig) (env : FetchEnv) : Except Err FileBlob :=
  match env.parsedUrl with
  | none => .error .invalidUrl
  | some url =>
    if schemeRejected cfg? url then .error .schemeNotAllowed
    else
      match validateDomain cfg? url.hostname with
      | .error e => .error e
      | .ok _ =>
        if env.headOk = false then .error .headFailed
        else if predeclaredRejected cfg? env.contentLength then
          .error .sizeExceededPredeclared
        else if env.getOk = false then .error .getFailed
        else
          let ct := resolveContentType fileSpec.mimeType env.contentType
          if env.bodyPresent = false then .error .emptyBody
          else
            match readBody (cfg?.map fun c => c.maxUrlFileSizeBytes)
                env.chunks with
            | .error e => .error e
            | .ok cs => .ok ⟨fileSpec.name, combineChunks cs, ct⟩

/-! ## Cancellation wiring of `fetchFileFromUrl` (lines 247–257) -/

/-- Which cancellation sources exist and which of them fire during one
`fetchFileFromUrl` run. -/
structure SignalState where
  externalPresent : Bool
  externalFired : Bool
  timerFired : Bool
  deriving DecidableEq, Repr

/-- The internal `AbortController` is aborted by the timer callback and,
when an external signal exists, by its re-broadcast listener
(`signal.addEventListener('abort', () => controller.abort())`). -/
def controllerAborted (cfg? : Option UrlUploadConfig) (st : SignalState) :
    Bool :=
  (timerArmed cfg? && st.timerFired) ||
    (st.externalPresent && st.externalFired)

/-- The signal actually passed to both `fetch` calls, per line 254:
`const combinedSignal = signal || controller.signal`. When an external
signal is present it alone is used; only otherwise does the controller's
signal (the timer's target) reach the requests. -/
def fetchSignalAborted (cfg? : Option UrlUploadConfig) (st : SignalState) :
    Bool :=
  if st.externalPresent then st.externalFired
  else controllerAborted cfg? st

/-- The behaviour the specification describes: a merge of both sources,
either of which aborts the in-flight requests. -/
def specEitherAborts (cfg? : Option UrlUploadConfig) (st : SignalState) :
    Bool :=
  (timerArmed cfg? && st.timerFired) ||
    (st.externalPresent && st.externalFired)

/-- The `finally` block of lines 341–345: the timer, when armed, is
cleared on every exit path. -/
def timerCleared (_cfg? : Option UrlUploadConfig) : Bool :=
  true

/-! ## Upload entry points (`uploadFiles`, `uploadFilesFromUrls`) -/

/-- `StorachaClient.uploadFiles`, lines 156–171: the
`!this.initialized || !this.storage` guard, the pre-aborted signal
guard, then delegation of the decoded files to `performUpload`. -/
def uploadFiles (s : ClientState) (aborted : Bool)
    (files : List FileBlob) : Except Err (List FileBlob) :=
  if s.initMemo.isNone ∨ s.storage.isNone then .error .notInitialized
  else if aborted then .error .uploadAborted
  else .ok files

/-- Fetch every file spec of a URL batch (`Promise.all` over
`fetchFileFromUrl`), failing on the first failure. -/
def fetchAll (cfg? : Option UrlUploadConfig) :
    List (UploadFileFromUrl × FetchEnv) → Except Err (List FileBlob)
  | [] => .ok []
  | (sp, env) :: rest =>
    match fetchFileFromUrl sp cfg? env with
    | .error e => .error e
    | .ok b =>
      match fetchAll cfg? rest with
      | .error e => .error e
      | .ok bs => .ok (b :: bs)

/-- `StorachaClient.uploadFilesFromUrls`, lines 179–201: the same
not-initialized and aborted guards, then the per-spec fetches, then
delegation to `performUpload`. -/
def uploadFilesFromUrls (s : ClientState) (aborted : Bool)
    (specs : List (UploadFileFromUrl × FetchEnv))
    (cfg? : Option UrlUploadConfig) : Except Err (List FileBlob) :=
  if s.initMemo.isNone ∨ s.storage.isNone then .error .notInitialized
  else if aborted then .error .uploadAborted
  else fetchAll cfg? specs

/-! ## Path resolver -/

/-- `Resource` from `types.ts`: the protocol tag is fixed to `ipfs:`, so
only the identifier and the pathname vary. -/
structure Resource where
  cid : String
  pathname : String
  deriving DecidableEq, Repr

/-- Strip a literal leading pattern from a character list, or answer
`none` when the pattern does not lead the list. -/
def dropLead : List Char → List Char → Option (List Char)
  | [], s => some s
  | _ :: _, [] => none
  | p :: ps, c :: cs => if c = p then dropLead ps cs else none

/-- Split a character list at its first `'/'`: the identifier before it
and the remainder from the slash on (kept verbatim). `none` when there is
no slash. -/
def takeIdent : List Char → Option (List Char × List Char)
  | [] => none
  | c :: cs =>
    if c = '/' then some ([], c :: cs)
    else
      match takeIdent cs with
      | some (idc, rest) => some (c :: idc, rest)
      | none => none

/-- The characters of the literal `"ipfs://"`. -/
def ipfsSchemeChars : List Char := ['i', 'p', 'f', 's', ':', '/', '/']

/-- The characters of the literal `"/ipfs/"`. -/
def ipfsPathChars : List Char := ['/', 'i', 'p', 'f', 's', '/']

/-- Modelled from the spec: `parseIpfsPath` lives in
`src/core/storage/utils.ts`, which is not among the provided sources;
§4.1 of the specification defines it. Accepted forms, tried on the raw
character list: strip a leading `ipfs://`, else a leading `/ipfs/`, else
take the input bare; then split at the first slash into a non-empty
identifier (checked by the supplied content-identifier validity test) and
a verbatim remainder that keeps its leading slash. Anything else is an
invalid path. -/
def parseTail (valid : String → Bool) (body : List Char) : Option Resource :=
  match takeIdent body with
  | none => none
  | some (idc, restc) =>
    if idc.isEmpty then none
    else if valid (String.mk idc) then
      some ⟨String.mk idc, String.mk restc⟩
    else none

/-- Modelled from the spec: the form dispatch of `parseIpfsPath`
(§4.1), trying the `ipfs://` form, then the `/ipfs/` form, then the bare
form. -/
def parseCore (valid : String → Bool) (s : List Char) : Option Resource :=
  match dropLead ipfsSchemeChars s with
  | some t => parseTail valid t
  | none =>
    match dropLead ipfsPathChars s with
    | some t => parseTail valid t
    | none => parseTail valid s

/-- Modelled from the spec: the string-level wrapper of `parseCore`;
failures carry the `InvalidPath` tag of §4.1. -/
def parseIpfsPath (valid : String → Bool) (path : String) :
    Except Err Resource :=
  match parseCore valid path.data with
  | some r => .ok r
  | none => .error .invalidPath

/-! ## Archive-based retrieval (`retrieve`) -/

/-- What the external world answers during one `retrieve` run. -/
structure RetrieveEnv where
  /-- `response.ok` of the gateway request -/
  respOk : Bool
  /-- `content-type` header of the gateway response -/
  contentType : Option String
  /-- the block lookup decoded from the archive body
  (`CarReader.fromBytes`): content identifier to block bytes -/
  blocks : List (String × List Nat)
  /-- the identifiers the exporter requests, in order, while walking the
  structure named by the request path -/
  wanted : List String
  deriving DecidableEq, Repr

/-- `reader.get(cid)` over the decoded archive lookup. -/
def lookupBlock (bs : List (String × List Nat)) (cid : String) :
    Option (List Nat) :=
  match bs.find? fun p => p.1 == cid with
  | some p => some p.2
  | none => none

/-- The exporter's pull loop with the `get` callback of lines 396–400:
every requested identifier must resolve in the lookup; a missing block
fails the whole export. -/
def exportWalk (bs : List (String × List Nat)) :
    List String → Except Err (List (List Nat))
  | [] => .ok []
  | c :: rest =>
    match lookupBlock bs c with
    | none => .error .blockNotFound
    | some b =>
      match exportWalk bs rest with
      | .error e => .error e
      | .ok out => .ok (b :: out)

/-- The request path built on lines 385–386:
`'/ipfs/' + cid + pathname + '?format=car'`. -/
def retrievePath (r : Resource) : String :=
  "/ipfs/" ++ (r.cid ++ r.pathname) ++ "?format=car"

/-- The absolute request URL: the path resolved against the gateway
origin (`new URL(path, gatewayUrl)`). -/
def retrieveFullUrl (gatewayOrigin : String) (r : Resource) : String :=
  gatewayOrigin ++ retrievePath r

/-- `StorachaClient.retrieve`, lines 380–412: parse the filepath, issue
the gateway request, fail hard on a non-success status, decode the
archive and export the named content, failing on any missing block. The
result pairs the issued request path with the exported block contents. -/
def retrieve (valid : String → Bool) (filepath : String)
    (env : RetrieveEnv) : Except Err (String × List (List Nat)) :=
  match parseIpfsPath valid filepath with
  | .error e => .error e
  | .ok r =>
    if env.respOk = false then .error .gatewayError
    else
      match exportWalk env.blocks env.wanted with
      | .error e => .error e
      | .ok out => .ok (retrievePath r, out)

/-! ## Helper lemmas -/

theorem initClient_fst_connectAttempts (env : InitEnv) (s : ClientState) :
    (initClient env s).1.connectAttempts ≤ s.connectAttempts + 1 := by
  unfold initClient
  cases h : s.initMemo with
  | some o => simp
  | none =>
    by_cases hs : s.hasSigner <;> by_cases hd : s.hasDelegation <;>
      simp [hs, hd]

theorem initClient_second_noop (env env2 : InitEnv) (s : ClientState) :
    initClient env2 (initClient env s).1 =
      ((initClient env s).1, (initClient env s).2) := by
  unfold initClient
  cases h : s.initMemo with
  | some o => simp [h]
  | none =>
    by_cases hs : s.hasSigner
    · by_cases hd : s.hasDelegation
      · simp [hs, hd]
      · simp [hs, hd, h]
    · simp [hs, h]

theorem validateDomain_error_eq (cfg? : Option UrlUploadConfig)
    (host : String) (e : Err)
    (h : validateDomain cfg? host = .error e) : e = .domainNotAllowed := by
  unfold validateDomain at h
  repeat' split at h
  all_goals simp_all

theorem readLoop_error_eq (mb : Option Nat) (e : Err) :
    ∀ (chunks acc : List (List Nat)) (total : Nat),
      (readLoop mb acc total chunks).1 = .error e →
      e = .sizeExceededStreaming := by
  intro chunks
  induction chunks with
  | nil => intro acc total h; simp [readLoop] at h
  | cons c rest ih =>
    intro acc total h
    rw [readLoop] at h
    by_cases hl : sizeLimitHit mb (total + c.length)
    · simp [hl] at h; exact h.symm
    · simp [hl] at h
      exact ih _ _ h

theorem readBody_error_eq (mb : Option Nat) (chunks : List (List Nat))
    (e : Err) (h : readBody mb chunks = .error e) :
    e = .sizeExceededStreaming :=
  readLoop_error_eq mb e chunks [] 0 h

theorem readLoop_characterization (m : Nat) (hm : m ≠ 0) :
    ∀ (chunks acc : List (List Nat)) (total : Nat),
      (readLoop (some m) acc total chunks).1 =
        if prefixExceeds m total chunks then .error .sizeExceededStreaming
        else .ok (acc ++ chunks) := by
  intro chunks
  induction chunks with
  | nil => intro acc total; simp [readLoop, prefixExceeds]
  | cons c rest ih =>
    intro acc total
    by_cases hx : total + c.length > m
    · have hhit : sizeLimitHit (some m) (total + c.length) = true := by
        simp [sizeLimitHit, hm, hx]
      simp [readLoop, hhit, prefixExceeds, hx]
    · have hhit : sizeLimitHit (some m) (total + c.length) = false := by
        simp [sizeLimitHit, hx]
      simp [readLoop, hhit, prefixExceeds, hx, ih]

theorem readLoop_retention (m : Nat) (hm : m ≠ 0) :
    ∀ (chunks acc : List (List Nat)) (total : Nat), total ≤ m →
      (readLoop (some m) acc total chunks).2 ≤ m + maxChunkLen chunks := by
  intro chunks
  induction chunks with
  | nil => intro acc total ht; simpa [readLoop, maxChunkLen] using ht
  | cons c rest ih =>
    intro acc total ht
    by_cases hhit : sizeLimitHit (some m) (total + c.length)
    · simp only [readLoop, hhit, if_true, maxChunkLen]
      calc total + c.length ≤ m + c.length := by omega
        _ ≤ m + max c.length (maxChunkLen rest) := by
            exact Nat.add_le_add_left (Nat.le_max_left _ _) m
    · have htot2 : total + c.length ≤ m := by
        simp [sizeLimitHit, hm] at hhit; omega
      have hrec := ih (acc ++ [c]) (total + c.length) htot2
      simp only [readLoop, hhit, if_false, maxChunkLen, ite_false]
      have h1 : total + c.length ≤ m + max c.length (maxChunkLen rest) := by
        omega
      have h2 : (readLoop (some m) (acc ++ [c]) (total + c.length) rest).2 ≤
          m + max c.length (maxChunkLen rest) := by
        calc (readLoop (some m) (acc ++ [c]) (total + c.length) rest).2 ≤
            m + maxChunkLen rest := hrec
          _ ≤ m + max c.length (maxChunkLen rest) :=
            Nat.add_le_add_left (Nat.le_max_right _ _) m
      exact max_le h1 h2

theorem readLoop_no_limit (mb : Option Nat)
    (hmb : ∀ t, sizeLimitHit mb t = false) :
    ∀ (chunks acc : List (List Nat)) (total : Nat),
      (readLoop mb acc total chunks).1 = .ok (acc ++ chunks) := by
  intro chunks
  induction chunks with
  | nil => intro acc total; simp [readLoop]
  | cons c rest ih =>
    intro acc total
    simp [readLoop, hmb, ih]

theorem fetchFileFromUrl_error_ne_notInitialized
    (sp : UploadFileFromUrl) (cfg? : Option UrlUploadConfig)
    (env : FetchEnv) :
    fetchFileFromUrl sp cfg? env ≠ .error .notInitialized := by
  unfold fetchFileFromUrl
  intro h
  repeat' split at h
  all_goals try (cases h)
  all_goals
    first
    | exact absurd (validateDomain_error_eq _ _ _ (by assumption)) (by decide)
    | exact absurd (readBody_error_eq _ _ _ (by assumption)) (by decide)

theorem fetchAll_error_ne_notInitialized (cfg? : Option UrlUploadConfig) :
    ∀ specs : List (UploadFileFromUrl × FetchEnv),
      fetchAll cfg? specs ≠ .error .notInitialized := by
  intro specs
  induction specs with
  | nil => simp [fetchAll]
  | cons p rest ih =>
    unfold fetchAll
    cases hf : fetchFileFromUrl p.1 cfg? p.2 with
    | error e =>
      intro hcon
      simp at hcon
      subst hcon
      exact fetchFileFromUrl_error_ne_notInitialized p.1 cfg? p.2 hf
    | ok b =>
      cases hr : fetchAll cfg? rest with
      | error e =>
        intro hcon
        simp at hcon
        subst hcon
        exact ih hr
      | ok bs => simp

/-! ## Claim theorems -/

/-- C1: `StorachaClient.initialize` is idempotent with a terminal
outcome: the first call on an instance commits the memoized promise
(performing at most one backend connection attempt), and any later
call — in the single-threaded event loop, this covers calls arriving
while the first is pending as well as calls after it settled — returns
the very same outcome and leaves the state untouched, even when the
first attempt failed. -/
theorem C1_init_idempotent_terminal (env env2 : InitEnv) (s : ClientState) :
    initClient env2 (initClient env s).1 =
        ((initClient env s).1, (initClient env s).2) ∧
      (initClient env s).1.connectAttempts ≤ s.connectAttempts + 1 :=
  ⟨initClient_second_noop env env2 s, initClient_fst_connectAttempts env s⟩

/-- C2 counterexample: run `initialize` on a fresh client in a world
where backend creation succeeds but the space-delegation step fails. The
client ends in the `Failed` (non-`Ready`) state, yet both upload entry
points pass the not-initialized guard instead of failing, because the
guard only checks that the promise and the storage handle are non-null. -/
theorem C2_counterexample :
    (initClient ⟨true, false⟩ freshClient).1.initMemo =
        some InitOutcome.failed ∧
      ¬ readyState (initClient ⟨true, false⟩ freshClient).1 ∧
      uploadFiles (initClient ⟨true, false⟩ freshClient).1 false [] ≠
        .error .notInitialized ∧
      uploadFilesFromUrls (initClient ⟨true, false⟩ freshClient).1 false []
          none ≠
        .error .notInitialized := by
  decide

/-- C2 amended: `uploadFiles` and `uploadFilesFromUrls` fail with the
not-initialized error exactly when the initialization promise was never
committed or the backend storage handle is unset; after one `initialize`
call on a fresh client that is exactly when backend client creation
failed, so a client whose initialization failed only at the
space-delegation step passes the guard and the upload is delegated. -/
theorem C2_upload_guard (s : ClientState) (ab : Bool)
    (files : List FileBlob) (specs : List (UploadFileFromUrl × FetchEnv))
    (cfg? : Option UrlUploadConfig) :
    (uploadFiles s ab files = .error .notInitialized ↔
        (s.initMemo = none ∨ s.storage = none)) ∧
      (uploadFilesFromUrls s ab specs cfg? = .error .notInitialized ↔
        (s.initMemo = none ∨ s.storage = none)) ∧
      ∀ env : InitEnv,
        (uploadFiles (initClient env freshClient).1 ab files =
            .error .notInitialized ↔
          env.createOk = false) := by
  refine ⟨?_, ?_, ?_⟩
  · by_cases hg : s.initMemo = none ∨ s.storage = none
    · simp [uploadFiles, hg]
    · by_cases ha : ab <;> simp [uploadFiles, hg, ha]
  · by_cases hg : s.initMemo = none ∨ s.storage = none
    · simp [uploadFilesFromUrls, hg]
    · by_cases ha : ab
      · simp [uploadFilesFromUrls, hg, ha]
      · have hr : uploadFilesFromUrls s ab specs cfg? =
            fetchAll cfg? specs := by
          simp [uploadFilesFromUrls, hg, ha]
        rw [hr]
        simp only [hg, iff_false]
        exact fetchAll_error_ne_notInitialized cfg? specs
  · intro env
    cases env with
    | mk c a =>
      cases c <;> cases a <;>
        by_cases ha : ab <;>
          simp [initClient, freshClient, runInitBody, uploadFiles, ha]

/-- C3: the intended merge of the internal timeout with the external
cancellation token does not happen. With the default five-minute timeout
armed and an external token present, line 254
(`const combinedSignal = signal || controller.signal`) passes the
external signal alone to both requests, so the timer firing aborts only
its own, unused controller: the requests keep running, contradicting the
claimed merge — while the merged source the specification (and the
code's own comment) describes would abort them. The timer itself is
cleared on every exit path. -/
theorem C3_timer_not_merged :
    timerArmed (some ⟨1073741824, ["https", "http"], 300000, true, none⟩) =
        true ∧
      fetchSignalAborted
          (some ⟨1073741824, ["https", "http"], 300000, true, none⟩)
          ⟨true, false, true⟩ =
        false ∧
      controllerAborted
          (some ⟨1073741824, ["https", "http"], 300000, true, none⟩)
          ⟨true, false, true⟩ =
        true ∧
      specEitherAborts
          (some ⟨1073741824, ["https", "http"], 300000, true, none⟩)
          ⟨true, false, true⟩ =
        true ∧
      timerCleared
          (some ⟨1073741824, ["https", "http"], 300000, true, none⟩) =
        true := by
  decide

/-- C4: with a positive `maxBytes` policy, a HEAD response declaring a
content length strictly above the limit makes the fetch fail with the
predeclared-size error, and the outcome is the same whatever the GET
phase would have answered (the body request is never issued); when no
content length is declared, the predeclared check is skipped and the
fetch never fails with that error. -/
theorem C4_predeclared_size (sp : UploadFileFromUrl) (cfg : UrlUploadConfig)
    (env : FetchEnv) (u : ParsedUrl) (n : Nat)
    (hm : 0 < cfg.maxUrlFileSizeBytes)
    (hu : env.parsedUrl = some u)
    (hs : schemeRejected (some cfg) u = false)
    (hd : validateDomain (some cfg) u.hostname = .ok ())
    (hh : env.headOk = true) :
    (env.contentLength = some n → cfg.maxUrlFileSizeBytes < n →
        ∀ (g bp : Bool) (ct : Option String) (cs : List (List Nat)),
          fetchFileFromUrl sp (some cfg)
              { env with getOk := g, contentType := ct, bodyPresent := bp,
                         chunks := cs } =
            .error .sizeExceededPredeclared) ∧
      (env.contentLength = none →
        fetchFileFromUrl sp (some cfg) env ≠
          .error .sizeExceededPredeclared) := by
  constructor
  · intro hcl hgt g bp ct cs
    have hpre : predeclaredRejected (some cfg) env.contentLength = true := by
      simp [predeclaredRejected, hcl, hgt]
      omega
    simp [fetchFileFromUrl, hu, hs, hd, hh, hpre]
  · intro hcl h
    unfold fetchFileFromUrl at h
    repeat' split at h
    all_goals try (cases h)
    all_goals
      first
      | exact absurd (validateDomain_error_eq _ _ _ (by assumption))
          (by decide)
      | exact absurd (readBody_error_eq _ _ _ (by assumption)) (by decide)
      | simp_all [predeclaredRejected]

/-- C5: with a positive `maxBytes` policy, the body is read chunk by
chunk with the running total checked after each chunk: the read fails
with the streaming-size error precisely when some prefix of the chunk
lengths exceeds the limit, succeeds with exactly the full chunk list
otherwise, never holds more than `maxBytes` plus one in-flight chunk,
and an exceeding body never yields a `FileBlob` from the full fetch,
whatever content length the server declared. -/
theorem C5_streaming_size (m : Nat) (hm : 0 < m)
    (chunks : List (List Nat)) :
    (prefixExceeds m 0 chunks = true →
        readBody (some m) chunks = .error .sizeExceededStreaming) ∧
      (prefixExceeds m 0 chunks = false →
        readBody (some m) chunks = .ok chunks) ∧
      readRetained (some m) chunks ≤ m + maxChunkLen chunks ∧
      (∀ (sp : UploadFileFromUrl) (cfg : UrlUploadConfig) (env : FetchEnv)
          (b : FileBlob),
        cfg.maxUrlFileSizeBytes = m → env.chunks = chunks →
        prefixExceeds m 0 chunks = true →
        fetchFileFromUrl sp (some cfg) env ≠ .ok b) := by
  have hm0 : m ≠ 0 := by omega
  refine ⟨?_, ?_, ?_, ?_⟩
  · intro hpx
    have hc := readLoop_characterization m hm0 chunks [] 0
    simp [readBody, hc, hpx]
  · intro hpx
    have hc := readLoop_characterization m hm0 chunks [] 0
    simp [readBody, hc, hpx]
  · exact readLoop_retention m hm0 chunks [] 0 (Nat.zero_le m)
  · intro sp cfg env b hcm hch hpx h
    have hErr : readBody (some m) chunks = .error .sizeExceededStreaming := by
      have hc := readLoop_characterization m hm0 chunks [] 0
      simp [readBody, hc, hpx]
    unfold fetchFileFromUrl at h
    repeat' split at h
    all_goals try (cases h)
    all_goals simp_all

theorem isDomainAllowed_iff (domains : List String) (host : String) :
    isDomainAllowed domains host = true ↔ specDomainAllowed domains host := by
  unfold isDomainAllowed specDomainAllowed suffixMatch
  simp [List.any_eq_true, List.isSuffixOf_iff_suffix]

/-- C6: with `allowAllDomains` off, the domain guard accepts exactly
when the allow-list is present and contains, case-insensitively, the
host exactly or a domain of which the host is a strict subdomain; an
absent or empty allow-list rejects outright; concretely, a sibling
domain never admits a host while the parent domain and case-changed
variants do. -/
theorem C6_domain_allowlist (cfg : UrlUploadConfig) (host : String)
    (hall : cfg.allowAllUrlDomains = false) :
    (validateDomain (some cfg) host = .ok () ↔
        ∃ ds, cfg.allowedUrlDomains = some ds ∧ specDomainAllowed ds host) ∧
      ((cfg.allowedUrlDomains = none ∨ cfg.allowedUrlDomains = some []) →
        validateDomain (some cfg) host = .error .domainNotAllowed) ∧
      isDomainAllowed ["x.b.com"] "a.b.com" = false ∧
      isDomainAllowed ["b.com"] "a.b.com" = true ∧
      isDomainAllowed ["B.Com"] "a.b.COM" = true := by
  refine ⟨?_, ?_, by decide, by decide, by decide⟩
  · unfold validateDomain
    simp only [hall, if_false, Bool.false_eq_true, ite_false]
    cases hds : cfg.allowedUrlDomains with
    | none => simp
    | some ds =>
      by_cases he : ds.isEmpty
      · have : ds = [] := by simpa [List.isEmpty_iff] using he
        subst this
        simp [specDomainAllowed]
      · by_cases hda : isDomainAllowed ds host
        · simp [he, hda, (isDomainAllowed_iff ds host).mp hda]
        · simp only [he, hda, if_false, ite_false]
          constructor
          · intro hcon; exact absurd hcon (by simp)
          · rintro ⟨ds2, hds2, hspec⟩
            cases hds2
            exact absurd ((isDomainAllowed_iff ds host).mpr hspec) (by
              simp [hda])
  · intro hcase
    unfold validateDomain
    rcases hcase with hnone | hnil
    · simp [hall, hnone]
    · simp [hall, hnil]

/-- C7 counterexample: a URL upload spec whose `mimeType` override is
present but empty does not take effect: JavaScript `||` treats the empty
string as absent, so the response-declared `text/html` wins although the
claim requires the present override (the empty string) to be used. -/
theorem C7_counterexample :
    fetchFileFromUrl ⟨"f", "https://example.com/a", some ""⟩ none
        ⟨some ⟨"https:", "example.com"⟩, true, none, true, some "text/html",
          true, [[1], [2, 3]]⟩ =
      .ok ⟨"f", [1, 2, 3], "text/html"⟩ ∧
    resolveContentType (some "") (some "text/html") ≠ "" := by
  constructor
  · rfl
  · decide

/-- C7 amended: the effective MIME type follows the precedence
caller-supplied override, then response-declared type, then the
`application/octet-stream` default, where each source counts only when
present AND non-empty; every successful fetch stamps its blob with
exactly this resolution. -/
theorem C7_mime_precedence (mo declared : Option String) :
    (∀ s, mo = some s → s ≠ "" → resolveContentType mo declared = s) ∧
      ((mo = none ∨ mo = some "") → ∀ s, declared = some s → s ≠ "" →
        resolveContentType mo declared = s) ∧
      ((mo = none ∨ mo = some "") → (declared = none ∨ declared = some "") →
        resolveContentType mo declared = "application/octet-stream") ∧
      ∀ (sp : UploadFileFromUrl) (cfg? : Option UrlUploadConfig)
          (env : FetchEnv) (b : FileBlob),
        fetchFileFromUrl sp cfg? env = .ok b →
        b.mimeType = resolveContentType sp.mimeType env.contentType := by
  refine ⟨?_, ?_, ?_, ?_⟩
  · intro s hmo hne
    subst hmo
    simp [resolveContentType, jsOrString, hne]
  · intro hmo s hdecl hne
    subst hdecl
    rcases hmo with h | h <;> subst h <;>
      simp [resolveContentType, jsOrString, hne]
  · intro hmo hdecl
    rcases hmo with h | h <;> subst h <;>
      rcases hdecl with h2 | h2 <;> subst h2 <;>
        simp [resolveContentType, jsOrString]
  · intro sp cfg? env b h
    unfold fetchFileFromUrl at h
    repeat' split at h
    all_goals try (cases h)
    all_goals simp_all

theorem dropLead_append (p : List Char) :
    ∀ s, dropLead p (p ++ s) = some s := by
  induction p with
  | nil => intro s; simp [dropLead]
  | cons c cs ih => intro s; simp [dropLead, ih]

theorem dropLead_sound (p : List Char) :
    ∀ s t, dropLead p s = some t → s = p ++ t := by
  induction p with
  | nil => intro s t h; simp [dropLead] at h; simp [h]
  | cons c cs ih =>
    intro s t h
    cases s with
    | nil => simp [dropLead] at h
    | cons a as =>
      unfold dropLead at h
      by_cases hac : a = c
      · subst hac
        simp at h
        have := ih as t h
        simp [this]
      · simp [hac] at h

theorem takeIdent_append : ∀ (idc : List Char), '/' ∉ idc →
    ∀ rest, takeIdent (idc ++ '/' :: rest) = some (idc, '/' :: rest) := by
  intro idc
  induction idc with
  | nil => intro _ rest; simp [takeIdent]
  | cons c cs ih =>
    intro hid rest
    have hc : ¬(c = '/') := by
      intro hc; exact hid (by simp [hc])
    have hcs : '/' ∉ cs := fun hmem => hid (List.mem_cons_of_mem _ hmem)
    simp [takeIdent, hc, ih hcs rest]

theorem takeIdent_sound : ∀ (s idc restc : List Char),
    takeIdent s = some (idc, restc) →
    s = idc ++ restc ∧ '/' ∉ idc ∧ ∃ r2, restc = '/' :: r2 := by
  intro s
  induction s with
  | nil => intro idc restc h; simp [takeIdent] at h
  | cons c cs ih =>
    intro idc restc h
    unfold takeIdent at h
    by_cases hc : c = '/'
    · subst hc
      simp at h
      obtain ⟨h1, h2⟩ := h
      subst h1; subst h2
      exact ⟨rfl, by simp, cs, rfl⟩
    · simp [hc] at h
      cases hrec : takeIdent cs with
      | none => rw [hrec] at h; simp at h
      | some pr =>
        rw [hrec] at h
        simp at h
        obtain ⟨h1, h2⟩ := h
        obtain ⟨hs, hni, r2, hr2⟩ := ih pr.1 pr.2 (by rw [hrec])
        subst h1; subst h2
        refine ⟨by simp [hs], ?_, r2, hr2⟩
        intro hmem
        rcases List.mem_cons.mp hmem with h | h
        · exact hc h.symm
        · exact hni h

theorem dropLead_scheme_bare (idc : List Char) (hid : idc ≠ [])
    (hsl : '/' ∉ idc) (hco : ':' ∉ idc) (rest : List Char) :
    dropLead ipfsSchemeChars (idc ++ '/' :: rest) = none := by
  rcases idc with _ | ⟨a, _ | ⟨b, _ | ⟨c2, _ | ⟨d, _ | ⟨e, tl⟩⟩⟩⟩⟩
  · exact absurd rfl hid
  · by_cases ha : a = 'i'
    · subst ha; rfl
    · simp [ipfsSchemeChars, dropLead, ha]
  · by_cases ha : a = 'i'
    · subst ha
      by_cases hb : b = 'p'
      · subst hb; rfl
      · simp [ipfsSchemeChars, dropLead, hb]
    · simp [ipfsSchemeChars, dropLead, ha]
  · by_cases ha : a = 'i'
    · subst ha
      by_cases hb : b = 'p'
      · subst hb
        by_cases hc : c2 = 'f'
        · subst hc; rfl
        · simp [ipfsSchemeChars, dropLead, hc]
      · simp [ipfsSchemeChars, dropLead, hb]
    · simp [ipfsSchemeChars, dropLead, ha]
  · by_cases ha : a = 'i'
    · subst ha
      by_cases hb : b = 'p'
      · subst hb
        by_cases hc : c2 = 'f'
        · subst hc
          by_cases hd : d = 's'
          · subst hd; rfl
          · simp [ipfsSchemeChars, dropLead, hd]
        · simp [ipfsSchemeChars, dropLead, hc]
      · simp [ipfsSchemeChars, dropLead, hb]
    · simp [ipfsSchemeChars, dropLead, ha]
  · have he : ¬(e = ':') := by
      intro hcon
      exact hco (by simp [hcon])
    by_cases ha : a = 'i'
    · subst ha
      by_cases hb : b = 'p'
      · subst hb
        by_cases hc : c2 = 'f'
        · subst hc
          by_cases hd : d = 's'
          · subst hd
            simp [ipfsSchemeChars, dropLead, he]
          · simp [ipfsSchemeChars, dropLead, hd]
        · simp [ipfsSchemeChars, dropLead, hc]
      · simp [ipfsSchemeChars, dropLead, hb]
    · simp [ipfsSchemeChars, dropLead, ha]

theorem dropLead_path_bare (idc : List Char) (hid : idc ≠ [])
    (hsl : '/' ∉ idc) (rest : List Char) :
    dropLead ipfsPathChars (idc ++ '/' :: rest) = none := by
  rcases idc with _ | ⟨a, t⟩
  · exact absurd rfl hid
  · have ha : ¬(a = '/') := by
      intro h; exact hsl (by simp [h])
    simp [ipfsPathChars, dropLead, ha]

theorem dropLead_scheme_slash (s : List Char) :
    dropLead ipfsSchemeChars ('/' :: s) = none := by
  simp [ipfsSchemeChars, dropLead]

theorem parseTail_append (valid : String → Bool) (idc : List Char)
    (hne : idc ≠ []) (hsl : '/' ∉ idc)
    (hv : valid (String.mk idc) = true) (rest : List Char) :
    parseTail valid (idc ++ '/' :: rest) =
      some ⟨String.mk idc, String.mk ('/' :: rest)⟩ := by
  have hie : idc.isEmpty = false := by
    cases idc with
    | nil => exact absurd rfl hne
    | cons a as => rfl
  simp [parseTail, takeIdent_append idc hsl rest, hie, hv]

theorem parseTail_sound (valid : String → Bool) (body : List Char)
    (r : Resource) (h : parseTail valid body = some r) :
    valid r.cid = true ∧ r.cid.data ≠ [] ∧
      (∃ p2, r.pathname.data = '/' :: p2) ∧
      body = r.cid.data ++ r.pathname.data := by
  unfold parseTail at h
  cases h2 : takeIdent body with
  | none => simp [h2] at h
  | some pr =>
    obtain ⟨idc, restc⟩ := pr
    simp only [h2] at h
    by_cases he : idc.isEmpty
    · simp [he] at h
    · by_cases hval : valid (String.mk idc)
      · simp only [he, hval, if_true, if_false, Bool.false_eq_true,
          ite_false, ite_true] at h
        obtain ⟨hs2, hni, r2, hr2⟩ := takeIdent_sound body idc restc h2
        have hrr : r = ⟨String.mk idc, String.mk restc⟩ := by
          cases h; rfl
        subst hrr
        refine ⟨hval, ?_, ⟨r2, by rw [hr2]⟩, by rw [hs2]⟩
        intro hcon
        have : idc = [] := hcon
        rw [this] at he
        exact he rfl
      · simp [he, hval] at h

theorem parseCore_ok (valid : String → Bool) (s : List Char) (r : Resource)
    (h : parseCore valid s = some r) :
    valid r.cid = true ∧ r.cid.data ≠ [] ∧
      (∃ p2, r.pathname.data = '/' :: p2) ∧
      (s = r.cid.data ++ r.pathname.data ∨
        s = ipfsPathChars ++ r.cid.data ++ r.pathname.data ∨
        s = ipfsSchemeChars ++ r.cid.data ++ r.pathname.data) := by
  unfold parseCore at h
  cases h1 : dropLead ipfsSchemeChars s with
  | some t =>
    simp only [h1] at h
    obtain ⟨hv, hne, hp, hb⟩ := parseTail_sound valid t r h
    have hs3 := dropLead_sound ipfsSchemeChars s t h1
    exact ⟨hv, hne, hp, Or.inr (Or.inr (by rw [hs3, hb, List.append_assoc]))⟩
  | none =>
    simp only [h1] at h
    cases h1b : dropLead ipfsPathChars s with
    | some t =>
      simp only [h1b] at h
      obtain ⟨hv, hne, hp, hb⟩ := parseTail_sound valid t r h
      have hs3 := dropLead_sound ipfsPathChars s t h1b
      exact ⟨hv, hne, hp,
        Or.inr (Or.inl (by rw [hs3, hb, List.append_assoc]))⟩
    | none =>
      simp only [h1b] at h
      obtain ⟨hv, hne, hp, hb⟩ := parseTail_sound valid s r h
      exact ⟨hv, hne, hp, Or.inl hb⟩

/-- C8: the three accepted locator forms with the same identifier and
remainder parse to equal `Resource` values whose pathname keeps the
leading slash and the remainder verbatim; conversely, every successful
parse comes from one of the three forms with a structurally valid,
non-empty identifier and a slash-headed pathname, so any input matching
no form fails with the invalid-path error. -/
theorem C8_path_forms (valid : String → Bool) (id rest : String)
    (hne : id ≠ "") (hsl : '/' ∉ id.data) (hco : ':' ∉ id.data)
    (hv : valid id = true) :
    parseIpfsPath valid (id ++ "/" ++ rest) = .ok ⟨id, "/" ++ rest⟩ ∧
      parseIpfsPath valid ("/ipfs/" ++ id ++ "/" ++ rest) =
        .ok ⟨id, "/" ++ rest⟩ ∧
      parseIpfsPath valid ("ipfs://" ++ id ++ "/" ++ rest) =
        .ok ⟨id, "/" ++ rest⟩ ∧
      ∀ (s : String) (r : Resource), parseIpfsPath valid s = .ok r →
        valid r.cid = true ∧ r.cid ≠ "" ∧
          (∃ p2, r.pathname.data = '/' :: p2) ∧
          (s = r.cid ++ r.pathname ∨ s = "/ipfs/" ++ r.cid ++ r.pathname ∨
            s = "ipfs://" ++ r.cid ++ r.pathname) := by
  have hdata : id.data ≠ [] := by
    intro hd
    exact hne (show id = "" from by cases id with | mk d => cases hd; rfl)
  have hmk : String.mk id.data = id := rfl
  have hvd : valid (String.mk id.data) = true := by rw [hmk]; exact hv
  refine ⟨?_, ?_, ?_, ?_⟩
  · have h1 : (id ++ "/" ++ rest).data = id.data ++ '/' :: rest.data := by
      simp [String.data_append]
    unfold parseIpfsPath parseCore
    simp only [h1, dropLead_scheme_bare id.data hdata hsl hco rest.data,
      dropLead_path_bare id.data hdata hsl rest.data,
      parseTail_append valid id.data hdata hsl hvd rest.data]
    rfl
  · have h1 : ("/ipfs/" ++ id ++ "/" ++ rest).data =
        ipfsPathChars ++ (id.data ++ '/' :: rest.data) := by
      simp [String.data_append, ipfsPathChars]
    have h2 : dropLead ipfsSchemeChars
        (ipfsPathChars ++ (id.data ++ '/' :: rest.data)) = none := by
      simp only [ipfsPathChars, List.cons_append]
      exact dropLead_scheme_slash _
    unfold parseIpfsPath parseCore
    simp only [h1, h2,
      dropLead_append ipfsPathChars (id.data ++ '/' :: rest.data),
      parseTail_append valid id.data hdata hsl hvd rest.data]
    rfl
  · have h1 : ("ipfs://" ++ id ++ "/" ++ rest).data =
        ipfsSchemeChars ++ (id.data ++ '/' :: rest.data) := by
      simp [String.data_append, ipfsSchemeChars]
    unfold parseIpfsPath parseCore
    simp only [h1,
      dropLead_append ipfsSchemeChars (id.data ++ '/' :: rest.data),
      parseTail_append valid id.data hdata hsl hvd rest.data]
    rfl
  · intro s r h
    have hc : parseCore valid s.data = some r := by
      unfold parseIpfsPath at h
      cases hpc : parseCore valid s.data with
      | none => rw [hpc] at h; cases h
      | some r2 => rw [hpc] at h; cases h; rfl
    obtain ⟨hvr, hner, hp, hforms⟩ := parseCore_ok valid s.data r hc
    refine ⟨hvr, ?_, hp, ?_⟩
    · intro hcon
      apply hner
      rw [hcon]
    · rcases hforms with hf | hf | hf
      · left
        have : String.mk s.data = String.mk (r.cid.data ++ r.pathname.data) :=
          congrArg String.mk hf
        exact this
      · right; left
        have : String.mk s.data =
            String.mk (ipfsPathChars ++ r.cid.data ++ r.pathname.data) :=
          congrArg String.mk hf
        exact this
      · right; right
        have : String.mk s.data =
            String.mk (ipfsSchemeChars ++ r.cid.data ++ r.pathname.data) :=
          congrArg String.mk hf
        exact this

theorem exportWalk_missing (bs : List (String × List Nat)) :
    ∀ (w : List String) (c : String), c ∈ w → lookupBlock bs c = none →
      exportWalk bs w = .error .blockNotFound := by
  intro w
  induction w with
  | nil => intro c hc; cases hc
  | cons c0 rest ih =>
    intro c hc hmiss
    unfold exportWalk
    cases hl : lookupBlock bs c0 with
    | none => rfl
    | some b =>
      rcases List.mem_cons.mp hc with hceq | hcr
      · subst hceq
        rw [hl] at hmiss
        cases hmiss
      · rw [ih c hcr hmiss]

theorem exportWalk_ok (bs : List (String × List Nat)) :
    ∀ (w : List String) (out : List (List Nat)),
      exportWalk bs w = .ok out →
      ∀ c ∈ w, (lookupBlock bs c).isSome := by
  intro w
  induction w with
  | nil => intro out _ c hc; cases hc
  | cons c0 rest ih =>
    intro out h c hc
    unfold exportWalk at h
    cases hl : lookupBlock bs c0 with
    | none => rw [hl] at h; cases h
    | some b =>
      rw [hl] at h
      rcases List.mem_cons.mp hc with hceq | hcr
      · subst hceq; rw [hl]; rfl
      · cases hrec : exportWalk bs rest with
        | error e => rw [hrec] at h; cases h
        | ok out2 => exact ih out2 hrec c hcr

/-- C9: `retrieve` addresses the gateway at
`{gatewayBase}/ipfs/{identifier}{pathname}?format=car`, fails hard on a
non-success response status, and fails the whole export with the
block-not-found error whenever some identifier requested by the exporter
is absent from the decoded archive lookup — a successful result
certifies that every requested block was present, so a truncated archive
never yields partial output. -/
theorem C9_retrieve_archive (valid : String → Bool) (fp : String)
    (env : RetrieveEnv) (r : Resource)
    (hp : parseIpfsPath valid fp = .ok r) :
    (∀ g : String, retrieveFullUrl g r =
        g ++ ("/ipfs/" ++ (r.cid ++ r.pathname) ++ "?format=car")) ∧
      (env.respOk = false → retrieve valid fp env = .error .gatewayError) ∧
      (env.respOk = true → ∀ c ∈ env.wanted, lookupBlock env.blocks c = none →
        retrieve valid fp env = .error .blockNotFound) ∧
      (∀ out, retrieve valid fp env = .ok out →
        ∀ c ∈ env.wanted, (lookupBlock env.blocks c).isSome) := by
  refine ⟨?_, ?_, ?_, ?_⟩
  · intro g
    rfl
  · intro hresp
    simp [retrieve, hp, hresp]
  · intro hresp c hc hmiss
    simp [retrieve, hp, hresp, exportWalk_missing env.blocks env.wanted c hc
      hmiss]
  · intro out h c hc
    unfold retrieve at h
    rw [hp] at h
    by_cases hresp : env.respOk = false
    · simp [hresp] at h
    · simp only [hresp, if_false, ite_false] at h
      cases hw : exportWalk env.blocks env.wanted with
      | error e =>
        rw [hw] at h
        cases h
      | ok out2 => exact exportWalk_ok env.blocks env.wanted out2 hw c hc

/-- C10: with no `urlConfig` supplied, `fetchFileFromUrl` performs no
scheme, domain, predeclared-size or streaming-size check and arms no
timeout: every parseable URL of any scheme and host is accepted and the
full body of any size is buffered into the returned blob; the same size
checks are also skipped when `maxUrlFileSizeBytes` is zero. -/
theorem C10_no_config_no_checks (sp : UploadFileFromUrl) (env : FetchEnv)
    (u : ParsedUrl) (hu : env.parsedUrl = some u) (hh : env.headOk = true)
    (hg : env.getOk = true) (hb : env.bodyPresent = true) :
    timerArmed none = false ∧
      fetchFileFromUrl sp none env =
        .ok ⟨sp.name, combineChunks env.chunks,
          resolveContentType sp.mimeType env.contentType⟩ ∧
      ∀ cfg : UrlUploadConfig, cfg.maxUrlFileSizeBytes = 0 →
        schemeRejected (some cfg) u = false →
        validateDomain (some cfg) u.hostname = .ok () →
        fetchFileFromUrl sp (some cfg) env =
          .ok ⟨sp.name, combineChunks env.chunks,
            resolveContentType sp.mimeType env.contentType⟩ := by
  have hread : ∀ mb : Option Nat, (∀ t, sizeLimitHit mb t = false) →
      readBody mb env.chunks = .ok env.chunks := by
    intro mb hmb
    have := readLoop_no_limit mb hmb env.chunks [] 0
    simpa [readBody] using this
  refine ⟨rfl, ?_, ?_⟩
  · have hnone : readBody none env.chunks = .ok env.chunks :=
      hread none (fun t => rfl)
    simp [fetchFileFromUrl, hu, hh, hg, hb, schemeRejected, validateDomain,
      predeclaredRejected, hnone]
  · intro cfg hcm hs hd
    have hzero : readBody (some 0) env.chunks = .ok env.chunks :=
      hread (some 0) (fun t => by simp [sizeLimitHit])
    have hpre : predeclaredRejected (some cfg) env.contentLength = false := by
      unfold predeclaredRejected
      cases env.contentLength with
      | none => rfl
      | some n => simp [hcm]
    simp [fetchFileFromUrl, hu, hh, hg, hb, hs, hd, hpre, hcm, hzero]

/-! ## Witnesses -/

/-- Witness for C4 at a policy of 1000 bytes and a declared length of
2000. -/
theorem C4_predeclared_size_witness :
    0 < (⟨1000, ["https"], 0, true, none⟩ :
        UrlUploadConfig).maxUrlFileSizeBytes ∧
      ((⟨some ⟨"https:", "example.com"⟩, true, some 2000, true, none, true,
            [[1]]⟩ : FetchEnv).contentLength = some 2000 →
          (⟨1000, ["https"], 0, true, none⟩ :
              UrlUploadConfig).maxUrlFileSizeBytes < 2000 →
          ∀ (g bp : Bool) (ct : Option String) (cs : List (List Nat)),
            fetchFileFromUrl ⟨"f", "https://example.com/a", none⟩
                (some ⟨1000, ["https"], 0, true, none⟩)
                { (⟨some ⟨"https:", "example.com"⟩, true, some 2000, true,
                      none, true, [[1]]⟩ : FetchEnv) with
                  getOk := g, contentType := ct, bodyPresent := bp,
                  chunks := cs } =
              .error .sizeExceededPredeclared) ∧
        ((⟨some ⟨"https:", "example.com"⟩, true, some 2000, true, none, true,
            [[1]]⟩ : FetchEnv).contentLength = none →
          fetchFileFromUrl ⟨"f", "https://example.com/a", none⟩
              (some ⟨1000, ["https"], 0, true, none⟩)
              ⟨some ⟨"https:", "example.com"⟩, true, some 2000, true, none,
                true, [[1]]⟩ ≠
            .error .sizeExceededPredeclared) :=
  ⟨by decide,
    C4_predeclared_size ⟨"f", "https://example.com/a", none⟩
      ⟨1000, ["https"], 0, true, none⟩
      ⟨some ⟨"https:", "example.com"⟩, true, some 2000, true, none, true,
        [[1]]⟩
      ⟨"https:", "example.com"⟩ 2000 (by decide) rfl (by decide) rfl rfl⟩

/-- Witness for C5 at a limit of 2 bytes and a single 3-byte chunk. -/
theorem C5_streaming_size_witness :
    0 < 2 ∧
      ((prefixExceeds 2 0 [[1, 2, 3]] = true →
          readBody (some 2) [[1, 2, 3]] = .error .sizeExceededStreaming) ∧
        (prefixExceeds 2 0 [[1, 2, 3]] = false →
          readBody (some 2) [[1, 2, 3]] = .ok [[1, 2, 3]]) ∧
        readRetained (some 2) [[1, 2, 3]] ≤ 2 + maxChunkLen [[1, 2, 3]] ∧
        (∀ (sp : UploadFileFromUrl) (cfg : UrlUploadConfig) (env : FetchEnv)
            (b : FileBlob),
          cfg.maxUrlFileSizeBytes = 2 → env.chunks = [[1, 2, 3]] →
          prefixExceeds 2 0 [[1, 2, 3]] = true →
          fetchFileFromUrl sp (some cfg) env ≠ .ok b)) :=
  ⟨by decide, C5_streaming_size 2 (by decide) [[1, 2, 3]]⟩

/-- Witness for C6 at the allow-list `["example.com"]` and the host
`cdn.example.com`. -/
theorem C6_domain_allowlist_witness :
    (⟨1000, ["https"], 0, false, some ["example.com"]⟩ :
        UrlUploadConfig).allowAllUrlDomains = false ∧
      ((validateDomain (some ⟨1000, ["https"], 0, false,
            some ["example.com"]⟩) "cdn.example.com" = .ok () ↔
          ∃ ds, (⟨1000, ["https"], 0, false, some ["example.com"]⟩ :
              UrlUploadConfig).allowedUrlDomains = some ds ∧
            specDomainAllowed ds "cdn.example.com") ∧
        (((⟨1000, ["https"], 0, false, some ["example.com"]⟩ :
              UrlUploadConfig).allowedUrlDomains = none ∨
            (⟨1000, ["https"], 0, false, some ["example.com"]⟩ :
              UrlUploadConfig).allowedUrlDomains = some []) →
          validateDomain (some ⟨1000, ["https"], 0, false,
              some ["example.com"]⟩) "cdn.example.com" =
            .error .domainNotAllowed) ∧
        isDomainAllowed ["x.b.com"] "a.b.com" = false ∧
        isDomainAllowed ["b.com"] "a.b.com" = true ∧
        isDomainAllowed ["B.Com"] "a.b.COM" = true) :=
  ⟨rfl,
    C6_domain_allowlist ⟨1000, ["https"], 0, false, some ["example.com"]⟩
      "cdn.example.com" rfl⟩

/-- Witness for C7 at a non-empty override, a declared-only type, and
the default case. -/
theorem C7_mime_precedence_witness :
    resolveContentType (some "x") (some "y") = "x" ∧
      resolveContentType none (some "y") = "y" ∧
      resolveContentType none none = "application/octet-stream" :=
  ⟨(C7_mime_precedence (some "x") (some "y")).1 "x" rfl (by decide),
    (C7_mime_precedence none (some "y")).2.1 (Or.inl rfl) "y" rfl (by decide),
    (C7_mime_precedence none none).2.2.1 (Or.inl rfl) (Or.inl rfl)⟩

/-- Witness for C8 at the identifier `bafyXYZ` and remainder
`readme.txt`. -/
theorem C8_path_forms_witness :
    ("bafyXYZ" : String) ≠ "" ∧ '/' ∉ ("bafyXYZ" : String).data ∧
      ':' ∉ ("bafyXYZ" : String).data ∧
      (fun s => s == "bafyXYZ") "bafyXYZ" = true ∧
      (parseIpfsPath (fun s => s == "bafyXYZ")
            ("bafyXYZ" ++ "/" ++ "readme.txt") =
          .ok ⟨"bafyXYZ", "/" ++ "readme.txt"⟩ ∧
        parseIpfsPath (fun s => s == "bafyXYZ")
            ("/ipfs/" ++ "bafyXYZ" ++ "/" ++ "readme.txt") =
          .ok ⟨"bafyXYZ", "/" ++ "readme.txt"⟩ ∧
        parseIpfsPath (fun s => s == "bafyXYZ")
            ("ipfs://" ++ "bafyXYZ" ++ "/" ++ "readme.txt") =
          .ok ⟨"bafyXYZ", "/" ++ "readme.txt"⟩ ∧
        ∀ (s : String) (r : Resource),
          parseIpfsPath (fun s2 => s2 == "bafyXYZ") s = .ok r →
          (fun s2 => s2 == "bafyXYZ") r.cid = true ∧ r.cid ≠ "" ∧
            (∃ p2, r.pathname.data = '/' :: p2) ∧
            (s = r.cid ++ r.pathname ∨ s = "/ipfs/" ++ r.cid ++ r.pathname ∨
              s = "ipfs://" ++ r.cid ++ r.pathname)) :=
  ⟨by decide, by decide, by decide, rfl,
    C8_path_forms (fun s => s == "bafyXYZ") "bafyXYZ" "readme.txt"
      (by decide) (by decide) (by decide) rfl⟩

/-- Witness for C9 at a two-block archive with both wanted blocks
present. -/
theorem C9_retrieve_archive_witness :
    parseIpfsPath (fun _ => true) "bafy1/readme.txt" =
        .ok ⟨"bafy1", "/readme.txt"⟩ ∧
      ((∀ g : String,
          retrieveFullUrl g ⟨"bafy1", "/readme.txt"⟩ =
            g ++ ("/ipfs/" ++ ("bafy1" ++ "/readme.txt") ++ "?format=car")) ∧
        ((⟨true, none, [("a", [1, 2]), ("b", [3])], ["a", "b"]⟩ :
              RetrieveEnv).respOk = false →
          retrieve (fun _ => true) "bafy1/readme.txt"
              ⟨true, none, [("a", [1, 2]), ("b", [3])], ["a", "b"]⟩ =
            .error .gatewayError) ∧
        ((⟨true, none, [("a", [1, 2]), ("b", [3])], ["a", "b"]⟩ :
              RetrieveEnv).respOk = true →
          ∀ c ∈ (⟨true, none, [("a", [1, 2]), ("b", [3])], ["a", "b"]⟩ :
              RetrieveEnv).wanted,
            lookupBlock (⟨true, none, [("a", [1, 2]), ("b", [3])],
                ["a", "b"]⟩ : RetrieveEnv).blocks c = none →
            retrieve (fun _ => true) "bafy1/readme.txt"
                ⟨true, none, [("a", [1, 2]), ("b", [3])], ["a", "b"]⟩ =
              .error .blockNotFound) ∧
        (∀ out,
          retrieve (fun _ => true) "bafy1/readme.txt"
              ⟨true, none, [("a", [1, 2]), ("b", [3])], ["a", "b"]⟩ =
            .ok out →
          ∀ c ∈ (⟨true, none, [("a", [1, 2]), ("b", [3])], ["a", "b"]⟩ :
              RetrieveEnv).wanted,
            (lookupBlock (⟨true, none, [("a", [1, 2]), ("b", [3])],
                ["a", "b"]⟩ : RetrieveEnv).blocks c).isSome)) :=
  ⟨rfl,
    C9_retrieve_archive (fun _ => true) "bafy1/readme.txt"
      ⟨true, none, [("a", [1, 2]), ("b", [3])], ["a", "b"]⟩
      ⟨"bafy1", "/readme.txt"⟩ rfl⟩

/-- Witness for C10 at an `ftp` URL on an arbitrary host with a
two-chunk body and no configuration. -/
theorem C10_no_config_no_checks_witness :
    (⟨some ⟨"ftp:", "anything.example"⟩, true, some 999999, true, none, true,
          [[1], [2]]⟩ : FetchEnv).parsedUrl =
        some ⟨"ftp:", "anything.example"⟩ ∧
      (⟨some ⟨"ftp:", "anything.example"⟩, true, some 999999, true, none,
          true, [[1], [2]]⟩ : FetchEnv).headOk = true ∧
      (⟨some ⟨"ftp:", "anything.example"⟩, true, some 999999, true, none,
          true, [[1], [2]]⟩ : FetchEnv).getOk = true ∧
      (⟨some ⟨"ftp:", "anything.example"⟩, true, some 999999, true, none,
          true, [[1], [2]]⟩ : FetchEnv).bodyPresent = true ∧
      (timerArmed none = false ∧
        fetchFileFromUrl ⟨"f", "ftp://anything.example/x", none⟩ none
            ⟨some ⟨"ftp:", "anything.example"⟩, true, some 999999, true,
              none, true, [[1], [2]]⟩ =
          .ok ⟨(⟨"f", "ftp://anything.example/x", none⟩ :
              UploadFileFromUrl).name,
            combineChunks (⟨some ⟨"ftp:", "anything.example"⟩, true,
                some 999999, true, none, true, [[1], [2]]⟩ :
                FetchEnv).chunks,
            resolveContentType (⟨"f", "ftp://anything.example/x", none⟩ :
                UploadFileFromUrl).mimeType
              (⟨some ⟨"ftp:", "anything.example"⟩, true, some 999999, true,
                  none, true, [[1], [2]]⟩ : FetchEnv).contentType⟩ ∧
        ∀ cfg : UrlUploadConfig, cfg.maxUrlFileSizeBytes = 0 →
          schemeRejected (some cfg) ⟨"ftp:", "anything.example"⟩ = false →
          validateDomain (some cfg)
              (⟨"ftp:", "anything.example"⟩ : ParsedUrl).hostname = .ok () →
          fetchFileFromUrl ⟨"f", "ftp://anything.example/x", none⟩
              (some cfg)
              ⟨some ⟨"ftp:", "anything.example"⟩, true, some 999999, true,
                none, true, [[1], [2]]⟩ =
            .ok ⟨(⟨"f", "ftp://anything.example/x", none⟩ :
                UploadFileFromUrl).name,
              combineChunks (⟨some ⟨"ftp:", "anything.example"⟩, true,
                  some 999999, true, none, true, [[1], [2]]⟩ :
                  FetchEnv).chunks,
              resolveContentType (⟨"f", "ftp://anything.example/x", none⟩ :
                  UploadFileFromUrl).mimeType
                (⟨some ⟨"ftp:", "anything.example"⟩, true, some 999999,
                    true, none, true, [[1], [2]]⟩ : FetchEnv).contentType⟩) :=
  ⟨rfl, rfl, rfl, rfl,
    C10_no_config_no_checks ⟨"f", "ftp://anything.example/x", none⟩
      ⟨some ⟨"ftp:", "anything.example"⟩, true, some 999999, true, none,
        true, [[1], [2]]⟩
      ⟨"ftp:", "anything.example"⟩ rfl rfl rfl rfl⟩

end Storacha
